import Mathlib

/-!
Verification of the mass-interval tracking and state-transition engine of the
EVE wormhole rolling tool (`src/wormhole-logic.js`, `src/app.js`).

JavaScript numbers are modelled as rationals (`ℚ`); every quantity the engine
manipulates is produced by integer literals, `Math.round`, `Math.floor`,
additions, subtractions, multiplications by decimal literals and divisions,
all of which are exact on `ℚ`.  `Math.round x` rounds half toward positive
infinity, i.e. `⌊x + 1/2⌋`; `Math.floor` is `⌊·⌋`.
-/

namespace EveRolling

/-- JavaScript `Math.round`: round half toward positive infinity. -/
def jsRound (x : ℚ) : ℚ := ((⌊x + 1/2⌋ : ℤ) : ℚ)

/-- JavaScript `Math.floor`. -/
def jsFloor (x : ℚ) : ℚ := ((⌊x⌋ : ℤ) : ℚ)

/-- A mass interval `{min, max}` as used throughout `wormhole-logic.js`. -/
structure MassRange where
  min : ℚ
  max : ℚ
deriving DecidableEq, Repr

/-- Wormhole states (`WORMHOLE_STATES` in `wormhole-logic.js`). -/
inductive WhState where
  | fresh
  | stable
  | destab
  | critical
  | gone
deriving DecidableEq, Repr

/-- The `Wormhole` class of `wormhole-logic.js`: a base mass and a state
(`variance` is the constant `0.1`; the cosmetic `passedMass` label is omitted). -/
structure Wormhole where
  baseMass : ℚ
  state : WhState
deriving DecidableEq, Repr

/-- `Wormhole.prototype.getMinMass`: `Math.round(baseMass * (1 - variance))`. -/
def Wormhole.getMinMass (w : Wormhole) : ℚ := jsRound (w.baseMass * (1 - 1/10))

/-- `Wormhole.prototype.getMaxMass`: `Math.round(baseMass * (1 + variance))`. -/
def Wormhole.getMaxMass (w : Wormhole) : ℚ := jsRound (w.baseMass * (1 + 1/10))

/-- `Wormhole.prototype.getCurrentMassRange` (wormhole-logic.js lines 50-69):
the initial/display mass range for each state. -/
def Wormhole.getCurrentMassRange (w : Wormhole) : MassRange :=
  let minBase := w.getMinMass
  let maxBase := w.getMaxMass
  match w.state with
  | .fresh => ⟨minBase, maxBase⟩
  | .stable => ⟨jsRound (minBase * (1/2)), maxBase⟩
  | .destab => ⟨jsRound (minBase * (1/10)), jsRound (maxBase * (1/2))⟩
  | .critical => ⟨jsRound (minBase * 0), jsRound (maxBase * (1/10))⟩
  | .gone => ⟨-5000, 0⟩

/-- `Wormhole.prototype.getStateBoundaries` (wormhole-logic.js lines 71-90):
the boundaries used for state calculations; `fresh` uses the `stable`
boundaries. -/
def Wormhole.getStateBoundaries (w : Wormhole) : MassRange :=
  let minBase := w.getMinMass
  let maxBase := w.getMaxMass
  match w.state with
  | .fresh => ⟨jsRound (minBase * (1/2)), maxBase⟩
  | .stable => ⟨jsRound (minBase * (1/2)), maxBase⟩
  | .destab => ⟨jsRound (minBase * (1/10)), jsRound (maxBase * (1/2))⟩
  | .critical => ⟨jsRound (minBase * 0), jsRound (maxBase * (1/10))⟩
  | .gone => ⟨-5000, 0⟩

/-- The `WORMHOLE_MASS_TYPES` constant: the base capacities offered by the UI. -/
def WORMHOLE_MASS_TYPES : List ℚ := [100, 500, 750, 1000, 2000, 3000, 3300, 5000]

/-- The keys of the `SHIP_TYPES` table of `wormhole-logic.js`. -/
inductive ShipKey where
  | rbs
  | rhic
  | carrier
  | bs
  | marauder
  | cruiser
deriving DecidableEq, Repr

/-- The per-ship reference data of the `SHIP_TYPES` table: cold and hot mass
(the display name is cosmetic and omitted). -/
structure ShipData where
  cold : ℚ
  hot : ℚ
deriving DecidableEq, Repr

/-- The `SHIP_TYPES` table (wormhole-logic.js lines 4-11). -/
def SHIP_TYPES : ShipKey → ShipData
  | .rbs => ⟨200, 300⟩
  | .rhic => ⟨1, 65⟩
  | .carrier => ⟨1250, 1750⟩
  | .bs => ⟨100, 150⟩
  | .marauder => ⟨160, 210⟩
  | .cruiser => ⟨13, 63⟩

/-- The `SHIP_MODES` of `wormhole-logic.js`. -/
inductive ShipMode where
  | cold
  | unknown
  | hot
  | custom
deriving DecidableEq, Repr

/-- `Ship.prototype.getMass` (wormhole-logic.js lines 99-112): a catalogue ship
returns `[cold, hot]` in unknown mode and an exact point interval in cold/hot
mode; `custom` is not a key of the ship data, so the lookup yields `{0, 0}`. -/
def Ship.getMass (t : ShipKey) (mode : ShipMode) : MassRange :=
  let shipData := SHIP_TYPES t
  match mode with
  | .unknown => ⟨shipData.cold, shipData.hot⟩
  | .cold => ⟨shipData.cold, shipData.cold⟩
  | .hot => ⟨shipData.hot, shipData.hot⟩
  | .custom => ⟨0, 0⟩

/-- The objects an `Action` can carry as its `ship` field: a catalogue `Ship`,
a `CustomMass` (exact scalar, no catalogue type), or the unknown-mode ship
object built by `WormholeRollingUI.createEventShip` for random events. -/
inductive ShipRef where
  | ship (type : ShipKey) (mode : ShipMode)
  | customMass (mass : ℚ)
  | eventShip (type : ShipKey)
deriving DecidableEq, Repr

/-- The `getMass` method of whichever object an action's `ship` field holds. -/
def ShipRef.getMass : ShipRef → MassRange
  | .ship t mode => Ship.getMass t mode
  | .customMass m => ⟨m, m⟩
  | .eventShip t => ⟨(SHIP_TYPES t).cold, (SHIP_TYPES t).hot⟩

/-- The `type` field of an action's ship: `CustomMass` objects have none
(`undefined`, hence falsy in the far-side bookkeeping of `app.js`). -/
def ShipRef.typeKey : ShipRef → Option ShipKey
  | .ship t _ => some t
  | .customMass _ => none
  | .eventShip t => some t

/-- Action direction: `'A'` is incoming, `'B'` is outgoing. -/
inductive Direction where
  | A
  | B
deriving DecidableEq, Repr

/-- The `Action` class of `wormhole-logic.js`: a ship and a direction. -/
structure Action where
  ship : ShipRef
  direction : Direction
deriving DecidableEq, Repr

/-- The unclamped subtraction step of `Action.prototype.applyToMass`
(wormhole-logic.js lines 156-172): exact masses subtract the same scalar from
both bounds, ranges subtract asymmetrically; both bounds are clamped to `≥ 0`. -/
def Action.subtractShipMass (shipMass currentMass : MassRange) : MassRange :=
  if shipMass.min = shipMass.max then
    let massToSubtract := shipMass.min
    ⟨max 0 (currentMass.min - massToSubtract), max 0 (currentMass.max - massToSubtract)⟩
  else
    ⟨max 0 (currentMass.min - shipMass.max), max 0 (currentMass.max - shipMass.min)⟩

/-- `Action.prototype.applyToMass` (wormhole-logic.js lines 155-186): subtract
the ship mass, then, only when a wormhole state object is supplied, intersect
with its state boundaries and force `min ≤ max`. -/
def Action.applyToMass (a : Action) (currentMass : MassRange)
    (wormholeState : Option Wormhole) : MassRange :=
  let newMass := Action.subtractShipMass a.ship.getMass currentMass
  match wormholeState with
  | none => newMass
  | some w =>
    let stateBoundaries := w.getStateBoundaries
    let newMin := max newMass.min stateBoundaries.min
    let newMax := min newMass.max stateBoundaries.max
    ⟨min newMin newMax, newMax⟩

/-- Applying an action without a wormhole state is the raw subtraction. -/
lemma Action.applyToMass_none (a : Action) (m : MassRange) :
    a.applyToMass m none = Action.subtractShipMass a.ship.getMass m := rfl

/-- C9: starting from the fresh 3000 Gg display range `{2700, 3300}`, applying
an unknown-mode battleship (cold 100, hot 150) via `Action.applyToMass` without
a boundary state yields `{2550, 3200}`, and then applying a hot battleship
(exact 150) yields `{2400, 3050}`. -/
theorem applyToMass_scenario_3000 :
    (Wormhole.mk 3000 .fresh).getCurrentMassRange = ⟨2700, 3300⟩ ∧
    (Action.mk (.ship .bs .unknown) .A).applyToMass ⟨2700, 3300⟩ none = ⟨2550, 3200⟩ ∧
    (Action.mk (.ship .bs .hot) .A).applyToMass ⟨2550, 3200⟩ none = ⟨2400, 3050⟩ := by
  refine ⟨?_, ?_, ?_⟩ <;>
    simp only [Wormhole.getCurrentMassRange, Wormhole.getMinMass, Wormhole.getMaxMass,
      Action.applyToMass, Action.subtractShipMass, ShipRef.getMass, Ship.getMass,
      SHIP_TYPES, jsRound] <;>
    norm_num

/-- C8: for every base capacity in the `WORMHOLE_MASS_TYPES` list and every
wormhole state, `getStateBoundaries` returns an interval with `min ≤ max`; for
`critical` the minimum is exactly 0 independent of the capacity; for `gone` the
interval is exactly `{-5000, 0}`. -/
theorem getStateBoundaries_sound :
    ∀ base ∈ WORMHOLE_MASS_TYPES, ∀ st : WhState,
      (Wormhole.mk base st).getStateBoundaries.min ≤
        (Wormhole.mk base st).getStateBoundaries.max ∧
      (st = .critical → (Wormhole.mk base st).getStateBoundaries.min = 0) ∧
      (st = .gone → (Wormhole.mk base st).getStateBoundaries = ⟨-5000, 0⟩) := by
  intro base hbase st
  refine ⟨?_, ?_, ?_⟩
  · fin_cases hbase <;> cases st <;>
      simp only [Wormhole.getStateBoundaries, Wormhole.getMinMass, Wormhole.getMaxMass,
        jsRound] <;>
      norm_num
  · rintro rfl
    fin_cases hbase <;>
      simp only [Wormhole.getStateBoundaries, Wormhole.getMinMass, Wormhole.getMaxMass,
        jsRound] <;>
      norm_num
  · rintro rfl
    rfl

/-- Witness for `getStateBoundaries_sound` at base capacity 3000 and state
`critical`. -/
theorem getStateBoundaries_sound_witness :
    (Wormhole.mk 3000 .critical).getStateBoundaries.min ≤
      (Wormhole.mk 3000 .critical).getStateBoundaries.max ∧
    (Wormhole.mk 3000 .critical).getStateBoundaries.min = 0 :=
  ⟨(getStateBoundaries_sound 3000 (by simp [WORMHOLE_MASS_TYPES]) .critical).1,
   (getStateBoundaries_sound 3000 (by simp [WORMHOLE_MASS_TYPES]) .critical).2.1 rfl⟩

/-- C2 counterexample: for the interval `{50, 100}` (which satisfies
`0 ≤ min ≤ max`) and the unknown-mode battleship (cold 100 ≤ hot 150),
`Action.applyToMass` without a boundary state clamps both bounds to 0, so the
width shrinks from 50 to 0: the claim `new.max − new.min ≥ old.max − old.min`
fails. -/
theorem unknown_subtraction_narrows_counterexample :
    (0 : ℚ) ≤ (50 : ℚ) ∧ (50 : ℚ) ≤ (100 : ℚ) ∧
    (SHIP_TYPES .bs).cold ≤ (SHIP_TYPES .bs).hot ∧
    (Action.mk (.ship .bs .unknown) .A).applyToMass ⟨50, 100⟩ none = ⟨0, 0⟩ ∧
    ¬ (((Action.mk (.ship .bs .unknown) .A).applyToMass ⟨50, 100⟩ none).max -
        ((Action.mk (.ship .bs .unknown) .A).applyToMass ⟨50, 100⟩ none).min ≥
        (100 : ℚ) - 50) := by
  refine ⟨by norm_num, by norm_num, ?_, ?_, ?_⟩ <;>
    simp only [Action.applyToMass, Action.subtractShipMass, ShipRef.getMass, Ship.getMass,
      SHIP_TYPES] <;>
    norm_num

/-- C2 amended: `Action.applyToMass` without a boundary state never narrows an
interval with `0 ≤ min ≤ max` for a ship whose mass range satisfies
`cold ≤ hot`, provided the zero-clamp is not reached, i.e. the worst-case ship
mass does not exceed the interval's lower bound. -/
theorem unknown_subtraction_no_narrowing (a : Action) (currentMass : MassRange)
    (_h0 : 0 ≤ currentMass.min) (h1 : currentMass.min ≤ currentMass.max)
    (hch : a.ship.getMass.min ≤ a.ship.getMass.max)
    (hfit : a.ship.getMass.max ≤ currentMass.min) :
    (a.applyToMass currentMass none).max - (a.applyToMass currentMass none).min ≥
      currentMass.max - currentMass.min := by
  rw [Action.applyToMass_none, Action.subtractShipMass]
  split_ifs with heq <;> dsimp only
  · rw [max_eq_right (by linarith), max_eq_right (by linarith)]
    linarith
  · rw [max_eq_right (by linarith), max_eq_right (by linarith)]
    linarith

/-- Witness for `unknown_subtraction_no_narrowing`: unknown-mode rolling
battleship on the interval `{1000, 1200}`. -/
theorem unknown_subtraction_no_narrowing_witness :
    (0 : ℚ) ≤ (MassRange.mk 1000 1200).min ∧
    (MassRange.mk 1000 1200).min ≤ (MassRange.mk 1000 1200).max ∧
    (Action.mk (.ship .rbs .unknown) .A).ship.getMass.min ≤
      (Action.mk (.ship .rbs .unknown) .A).ship.getMass.max ∧
    (Action.mk (.ship .rbs .unknown) .A).ship.getMass.max ≤
      (MassRange.mk 1000 1200).min ∧
    ((Action.mk (.ship .rbs .unknown) .A).applyToMass ⟨1000, 1200⟩ none).max -
      ((Action.mk (.ship .rbs .unknown) .A).applyToMass ⟨1000, 1200⟩ none).min ≥
      (MassRange.mk 1000 1200).max - (MassRange.mk 1000 1200).min :=
  ⟨by norm_num, by norm_num,
   by norm_num [ShipRef.getMass, Ship.getMass, SHIP_TYPES],
   by norm_num [ShipRef.getMass, Ship.getMass, SHIP_TYPES],
   unknown_subtraction_no_narrowing _ _ (by norm_num) (by norm_num)
     (by norm_num [ShipRef.getMass, Ship.getMass, SHIP_TYPES])
     (by norm_num [ShipRef.getMass, Ship.getMass, SHIP_TYPES])⟩

/-- C3 counterexample: for the interval `{50, 100}` and the hot battleship
(exact mass 150), `Action.applyToMass` without a boundary state clamps both
bounds to 0, so the width shrinks from 50 to 0 instead of being preserved. -/
theorem exact_subtraction_width_counterexample :
    (0 : ℚ) ≤ (50 : ℚ) ∧ (50 : ℚ) ≤ (100 : ℚ) ∧
    (Action.mk (.ship .bs .hot) .A).ship.getMass.min =
      (Action.mk (.ship .bs .hot) .A).ship.getMass.max ∧
    (Action.mk (.ship .bs .hot) .A).applyToMass ⟨50, 100⟩ none = ⟨0, 0⟩ ∧
    ¬ (((Action.mk (.ship .bs .hot) .A).applyToMass ⟨50, 100⟩ none).max -
        ((Action.mk (.ship .bs .hot) .A).applyToMass ⟨50, 100⟩ none).min =
        (100 : ℚ) - 50) := by
  refine ⟨by norm_num, by norm_num, ?_, ?_, ?_⟩ <;>
    simp only [Action.applyToMass, Action.subtractShipMass, ShipRef.getMass, Ship.getMass,
      SHIP_TYPES] <;>
    norm_num

/-- C3 amended: `Action.applyToMass` without a boundary state preserves the
width of an interval with `0 ≤ min ≤ max` for an exact-mass ship (the same
scalar is subtracted from both bounds), provided the zero-clamp is not
reached, i.e. the scalar does not exceed the interval's lower bound. -/
theorem exact_subtraction_preserves_width (a : Action) (currentMass : MassRange)
    (_h0 : 0 ≤ currentMass.min) (h1 : currentMass.min ≤ currentMass.max)
    (hexact : a.ship.getMass.min = a.ship.getMass.max)
    (hfit : a.ship.getMass.min ≤ currentMass.min) :
    (a.applyToMass currentMass none).max - (a.applyToMass currentMass none).min =
      currentMass.max - currentMass.min := by
  rw [Action.applyToMass_none, Action.subtractShipMass]
  split_ifs
  dsimp only
  rw [max_eq_right (by linarith), max_eq_right (by linarith)]
  ring

/-- Witness for `exact_subtraction_preserves_width`: hot battleship on the
interval `{1000, 1200}`. -/
theorem exact_subtraction_preserves_width_witness :
    (0 : ℚ) ≤ (MassRange.mk 1000 1200).min ∧
    (MassRange.mk 1000 1200).min ≤ (MassRange.mk 1000 1200).max ∧
    (Action.mk (.ship .bs .hot) .A).ship.getMass.min =
      (Action.mk (.ship .bs .hot) .A).ship.getMass.max ∧
    (Action.mk (.ship .bs .hot) .A).ship.getMass.min ≤ (MassRange.mk 1000 1200).min ∧
    ((Action.mk (.ship .bs .hot) .A).applyToMass ⟨1000, 1200⟩ none).max -
      ((Action.mk (.ship .bs .hot) .A).applyToMass ⟨1000, 1200⟩ none).min =
      (MassRange.mk 1000 1200).max - (MassRange.mk 1000 1200).min :=
  ⟨by norm_num, by norm_num,
   by norm_num [ShipRef.getMass, Ship.getMass, SHIP_TYPES],
   by norm_num [ShipRef.getMass, Ship.getMass, SHIP_TYPES],
   exact_subtraction_preserves_width _ _ (by norm_num) (by norm_num)
     (by norm_num [ShipRef.getMass, Ship.getMass, SHIP_TYPES])
     (by norm_num [ShipRef.getMass, Ship.getMass, SHIP_TYPES])⟩

/-- The `newState` field of the outcome objects built by
`GameMode.determineOutcome`: either a wormhole state or the `'no-change'`
marker. -/
inductive NewState where
  | state (s : WhState)
  | noChange
deriving DecidableEq, Repr

/-- The `type` tags of the outcome objects returned by
`GameMode.determineOutcome` (the display messages are cosmetic and omitted). -/
inductive OutcomeType where
  | collapse
  | critical
  | destab
  | stable
  | success
deriving DecidableEq, Repr

/-- An outcome object as returned by `GameMode.determineOutcome`. -/
structure Outcome where
  newState : NewState
  type : OutcomeType
deriving DecidableEq, Repr

/-- `GameMode.determineOutcome` (app.js lines 195-262): derive the target
state from the hidden remaining mass as a percentage of the hidden original
capacity; `gone` is reported unconditionally, the other targets only when the
state actually changes, else `'no-change'`. -/
def GameMode.determineOutcome (remainingMass initialActualMass : ℚ)
    (currentState : WhState) : Outcome :=
  let percentRemaining := remainingMass / initialActualMass * 100
  let targetState : WhState :=
    if remainingMass ≤ 0 then .gone
    else if percentRemaining ≤ 10 then .critical
    else if percentRemaining ≤ 50 then .destab
    else .stable
  if targetState = .gone then
    ⟨.state .gone, .collapse⟩
  else if targetState ≠ currentState then
    match targetState with
    | .critical => ⟨.state .critical, .critical⟩
    | .destab => ⟨.state .destab, .destab⟩
    | .stable => ⟨.state .stable, .stable⟩
    | _ => ⟨.noChange, .success⟩
  else
    ⟨.noChange, .success⟩

/-- The state a session is in after an outcome is applied: `'no-change'`
keeps the current state, otherwise the outcome's state is adopted (app.js
lines 116-118). -/
def resolveNewState (currentState : WhState) (o : Outcome) : WhState :=
  match o.newState with
  | .noChange => currentState
  | .state s => s

/-- Modelled from the spec, for comparison with `GameMode.determineOutcome`:
the automatic state derivation as the specification words it — with
`percentRemaining = remainingMass / originalCapacity × 100`, the state is
`gone` when `remainingMass ≤ 0`, `critical` when `percentRemaining ≤ 10`,
`destab` when `percentRemaining ≤ 50`, and `stable` otherwise. -/
def specDerivedState (remainingMass initialActualMass : ℚ) : WhState :=
  if remainingMass ≤ 0 then .gone
  else if remainingMass / initialActualMass * 100 ≤ 10 then .critical
  else if remainingMass / initialActualMass * 100 ≤ 50 then .destab
  else .stable

/-- C4: the state in force after `GameMode.determineOutcome` is exactly the
state the specification derives from `percentRemaining`, and the collapse
outcome is reported whenever the remaining mass is `≤ 0`, regardless of the
prior state. -/
theorem determineOutcome_matches_spec :
    ∀ (remainingMass initialActualMass : ℚ) (currentState : WhState),
      resolveNewState currentState
          (GameMode.determineOutcome remainingMass initialActualMass currentState) =
        specDerivedState remainingMass initialActualMass ∧
      (remainingMass ≤ 0 →
        GameMode.determineOutcome remainingMass initialActualMass currentState =
          ⟨.state .gone, .collapse⟩) := by
  intro r i c
  by_cases h0 : r ≤ 0 <;>
    by_cases h1 : r / i * 100 ≤ 10 <;>
      by_cases h2 : r / i * 100 ≤ 50 <;>
        cases c <;>
          simp [GameMode.determineOutcome, resolveNewState, specDerivedState, h0, h1, h2]

/-- Witness for `determineOutcome_matches_spec`: a collapsed wormhole reports
the collapse outcome from a `stable` prior state. -/
theorem determineOutcome_matches_spec_witness :
    GameMode.determineOutcome (-5) 675 .stable = ⟨.state .gone, .collapse⟩ :=
  (determineOutcome_matches_spec (-5) 675 .stable).2 (by norm_num)

/-- A committed log entry, reduced to the fields the engine later reads back:
the resulting display interval (`finalMass`) and, for tracker batches, the
per-batch passed-mass estimate (game-mode entries do not set `passedMass`,
modelled as `none`). -/
structure LogEntry where
  finalMass : MassRange
  passedMass : Option ℚ
deriving DecidableEq, Repr

/-- `WormholeRollingUI.calculateCurrentMass` (app.js lines 1109-1126): start
from the initial display range and replace it by each committed entry's
`finalMass` in order, so the result is the last committed interval, or the
initial range when nothing has been committed. -/
def calculateCurrentMass (initialWhSize : ℚ) (initialWhState : WhState)
    (committedActions : List LogEntry) : MassRange :=
  committedActions.foldl (fun _ entry => entry.finalMass)
    (Wormhole.mk initialWhSize initialWhState).getCurrentMassRange

/-- The far-side fleet bookkeeping shared by `GameMode.handleAddAction`
(app.js lines 93-106) and `WormholeRollingUI.commitStagingToLog` (app.js
lines 1152-1166): outgoing (`'B'`) increments the ship-type counter, incoming
(`'A'`) decrements it but never below 0 (the source deletes the key when the
count reaches 0, which is the same as storing 0); actions whose ship has no
`type` field (`CustomMass`) leave the map unchanged. -/
def farSideUpdate (ships : ShipKey → ℕ) (direction : Direction)
    (t : Option ShipKey) : ShipKey → ℕ :=
  match t, direction with
  | none, _ => ships
  | some k, .B => fun k2 => if k2 = k then ships k + 1 else ships k2
  | some k, .A => fun k2 => if k2 = k then ships k - 1 else ships k2

/-- The game-mode session state: the fields of `WormholeRollingUI` and its
`GameMode` that the action pipeline reads and writes. -/
structure GameState where
  initialWhSize : ℚ
  initialWhState : WhState
  currentWhState : WhState
  initialActualMass : ℚ
  remainingMass : ℚ
  randomEventOccurred : Bool
  committedActions : List LogEntry
  shipsOnFarSide : ShipKey → ℕ

/-- The observable result of `GameMode.handleAddAction`: the updated session
state, the outcome, the interval shown to the player, and whether the
consistency check of app.js lines 184-189 logged a `CONSISTENCY ERROR`. -/
structure ActionResult where
  state : GameState
  outcome : Outcome
  displayedResultMass : MassRange
  consistencyError : Bool

/-- `GameMode.handleAddAction` (app.js lines 75-193), up to the random-event
call that follows it: resolve the true consumed mass (the exact value when
known, otherwise a coin flip picks cold or hot), debit the hidden mass,
update the far-side ledger, derive the outcome, adopt the new state, compute
the displayed interval (the previous displayed interval with the action
applied raw, then clamped to the new state's boundaries; `{0, 0}` on
collapse), append the log entry, and evaluate the consistency check.
`coinBelowHalf` models `Math.random() < 0.5`, which selects the cold mass. -/
def GameMode.handleAddAction (st : GameState) (direction : Direction)
    (ship : ShipRef) (coinBelowHalf : Bool) : ActionResult :=
  let shipMass := ship.getMass
  let actualMassUsed :=
    if shipMass.min = shipMass.max then shipMass.min
    else if coinBelowHalf then shipMass.min else shipMass.max
  let remainingMass := st.remainingMass - actualMassUsed
  let shipsOnFarSide := farSideUpdate st.shipsOnFarSide direction ship.typeKey
  let outcome := GameMode.determineOutcome remainingMass st.initialActualMass st.currentWhState
  let currentWhState := resolveNewState st.currentWhState outcome
  let displayedResultMass :=
    if outcome.newState = .state .gone then (⟨0, 0⟩ : MassRange)
    else
      let currentDisplayedMass :=
        calculateCurrentMass st.initialWhSize st.initialWhState st.committedActions
      let raw := (Action.mk ship direction).applyToMass currentDisplayedMass none
      let stateBoundaries := (Wormhole.mk st.initialWhSize currentWhState).getStateBoundaries
      let newMin := max raw.min stateBoundaries.min
      let newMax := min raw.max stateBoundaries.max
      ⟨min newMin newMax, newMax⟩
  let consistencyError : Bool :=
    (decide (outcome.newState ≠ .state .gone) && decide (0 < remainingMass) &&
      (decide (remainingMass < displayedResultMass.min) ||
        decide (displayedResultMass.max < remainingMass))) ||
    (decide (outcome.newState = .state .gone) && decide (0 < remainingMass))
  { state :=
      { st with
        remainingMass := remainingMass
        currentWhState := currentWhState
        shipsOnFarSide := shipsOnFarSide
        committedActions := st.committedActions ++ [⟨displayedResultMass, none⟩] }
    outcome := outcome
    displayedResultMass := displayedResultMass
    consistencyError := consistencyError }

/-- Starting a game (`WormholeRollingUI.startTracking` followed by
`GameMode.initializeGame`, app.js lines 264-323 and 1507-1543): `fresh`
becomes `stable` as the current state; the hidden original capacity is
`⌊capacityDraw · (maxOriginal − minOriginal + 1)⌋ + minOriginal` where
`capacityDraw ∈ [0, 1)` models the `Math.random()` draw; the hidden remaining
mass is `⌊originalMass · remainingPercent⌋`, where `remainingPercent` is
drawn from the band of the chosen initial state (`fresh → 1`,
`stable → 0.5 + u·0.5`, `destab → 0.1 + u·0.4`, `critical → u·0.1`) via a
second draw `percentDraw ∈ [0, 1)`. -/
def startGame (initialWhSize : ℚ) (initialWhState : WhState)
    (initialFarSideFleet : ShipKey → ℕ) (capacityDraw percentDraw : ℚ) : GameState :=
  let minOriginal := jsRound (initialWhSize * (1 - 1/10))
  let maxOriginal := jsRound (initialWhSize * (1 + 1/10))
  let originalWormholeMass :=
    jsFloor (capacityDraw * (maxOriginal - minOriginal + 1)) + minOriginal
  let remainingPercent : ℚ :=
    match initialWhState with
    | .fresh => 1
    | .stable => 1/2 + percentDraw * (1/2)
    | .destab => 1/10 + percentDraw * (4/10)
    | .critical => percentDraw * (1/10)
    | .gone => 1
  { initialWhSize := initialWhSize
    initialWhState := initialWhState
    currentWhState := if initialWhState = .fresh then .stable else initialWhState
    initialActualMass := originalWormholeMass
    remainingMass := jsFloor (originalWormholeMass * remainingPercent)
    randomEventOccurred := false
    committedActions := []
    shipsOnFarSide := initialFarSideFleet }

/-- Evaluation of the outcome at the C1 scenario: remaining 37 of 675 is
about 5.5 percent, hence `critical`. -/
lemma determineOutcome_scenario_750 :
    GameMode.determineOutcome 37 675 .stable = ⟨.state .critical, .critical⟩ := by
  norm_num +decide [GameMode.determineOutcome]

/-- C1 (violated by the code at this input): a 750 Gg wormhole started in
`stable` state with capacity draw 0 (original capacity 675) and percent draw 0
(remaining mass `⌊337.5⌋ = 337`), after a single outgoing unknown-mode rolling
battleship resolved to its hot mass (300), reaches state `critical` (not
`gone`) with hidden remaining mass 37 strictly below the displayed interval
`{38, 83}` — and the code's own consistency check (app.js lines 184-186)
fires, reporting a bug in its calculation logic. -/
theorem gameSession_consistency_violation :
    (GameMode.handleAddAction (startGame 750 .stable (fun _ => 0) 0 0)
        .B (.ship .rbs .unknown) false).state.currentWhState = .critical ∧
    (GameMode.handleAddAction (startGame 750 .stable (fun _ => 0) 0 0)
        .B (.ship .rbs .unknown) false).state.remainingMass = 37 ∧
    (GameMode.handleAddAction (startGame 750 .stable (fun _ => 0) 0 0)
        .B (.ship .rbs .unknown) false).displayedResultMass = ⟨38, 83⟩ ∧
    (GameMode.handleAddAction (startGame 750 .stable (fun _ => 0) 0 0)
        .B (.ship .rbs .unknown) false).state.remainingMass <
      (GameMode.handleAddAction (startGame 750 .stable (fun _ => 0) 0 0)
        .B (.ship .rbs .unknown) false).displayedResultMass.min ∧
    (GameMode.handleAddAction (startGame 750 .stable (fun _ => 0) 0 0)
        .B (.ship .rbs .unknown) false).consistencyError = true := by
  refine ⟨?_, ?_, ?_, ?_, ?_⟩ <;>
    norm_num +decide [GameMode.handleAddAction, startGame, determineOutcome_scenario_750,
      resolveNewState, calculateCurrentMass, farSideUpdate, Wormhole.getCurrentMassRange,
      Wormhole.getStateBoundaries, Wormhole.getMinMass, Wormhole.getMaxMass,
      Action.applyToMass, Action.subtractShipMass, ShipRef.getMass, ShipRef.typeKey,
      Ship.getMass, SHIP_TYPES, jsRound, jsFloor, List.foldl]

/-- Direction tag of a random-event sub-action (`'outgoing'` / `'incoming'`
in the event tables). -/
inductive EventDir where
  | outgoing
  | incoming
deriving DecidableEq, Repr

/-- A sub-action of a random event: a catalogue ship type and a direction. -/
structure EventAction where
  shipType : ShipKey
  direction : EventDir
deriving DecidableEq, Repr

/-- Modelled from the spec: the `RANDOM_EVENTS` table is part of the full
repository (its consumers in app.js and its tests are present) but is not in
the extracted sources; per the spec each defined event has a list of
sub-actions and an independent trigger probability (the display name is
cosmetic and omitted). -/
structure RandomEvent where
  actions : List EventAction
  probability : ℚ
deriving DecidableEq, Repr

/-- Modelled from the spec: the ship catalogue's size class (`sizeClass`
1..5, used for restriction filtering).  The `size` fields of `SHIP_TYPES`
are read by app.js but absent from the extracted `wormhole-logic.js`; the
values follow the repository's own test expectations (rolling battleship,
battleship and marauder are battleship-class 3, rolling hictor and cruiser
are class 2, carrier is capital-class 5). -/
def shipSize : ShipKey → ℕ
  | .rbs => 3
  | .rhic => 2
  | .carrier => 5
  | .bs => 3
  | .marauder => 3
  | .cruiser => 2

/-- `WormholeRollingUI.checkForRandomEvents` (app.js lines 731-750), in game
mode: when a random event has already occurred this game the check is
blocked and no events are returned; otherwise each event triggers exactly
when its per-event `Math.random()` draw is below its probability. -/
def checkForRandomEvents (events : List RandomEvent) (randomEventOccurred : Bool)
    (rolls : List ℚ) : List RandomEvent :=
  if randomEventOccurred then []
  else ((events.zip rolls).filter fun er => er.2 < er.1.probability).map (·.1)

/-- The sub-action loop of `WormholeRollingUI.processRandomEventAsAction`
(app.js lines 794-863).  Each sub-action is skipped once the state is
`gone`; otherwise it debits the hidden mass by its `getMassImpact()` value
(paired with the sub-action in the input list), applies the corresponding
unknown-mode event-ship action to the running displayed interval, clamps to
the boundaries of the state current at that moment, derives the outcome, and
adopts the new state; the loop breaks after a sub-action whose outcome is
`gone`.  Returns the hidden remaining mass, the state, the displayed
interval, and the number of sub-actions processed. -/
def processEventActions (initialWhSize initialActualMass : ℚ) :
    List (EventAction × ℚ) → ℚ → WhState → MassRange → ℕ → ℚ × WhState × MassRange × ℕ
  | [], remainingMass, currentWhState, displayedMass, processed =>
    (remainingMass, currentWhState, displayedMass, processed)
  | (eventAction, massImpact) :: rest, remainingMass, currentWhState, displayedMass,
      processed =>
    if currentWhState = .gone then
      (remainingMass, currentWhState, displayedMass, processed)
    else
      let direction : Direction :=
        match eventAction.direction with
        | .outgoing => .B
        | .incoming => .A
      let action := Action.mk (.eventShip eventAction.shipType) direction
      let remainingMass1 := remainingMass - massImpact
      let raw := action.applyToMass displayedMass none
      let stateBoundaries :=
        (Wormhole.mk initialWhSize currentWhState).getStateBoundaries
      let newMin := max raw.min stateBoundaries.min
      let newMax := min raw.max stateBoundaries.max
      let displayedMass1 : MassRange := ⟨min newMin newMax, newMax⟩
      let outcome :=
        GameMode.determineOutcome remainingMass1 initialActualMass currentWhState
      let currentWhState1 := resolveNewState currentWhState outcome
      if outcome.newState = .state .gone then
        (remainingMass1, currentWhState1, displayedMass1, processed + 1)
      else
        processEventActions initialWhSize initialActualMass rest
          remainingMass1 currentWhState1 displayedMass1 (processed + 1)

/-- `WormholeRollingUI.processRandomEventAsAction` (app.js lines 779-910):
mark the one-per-game flag, run the sub-actions sequentially starting from
the current player view, and append one consolidated log entry with the
final progressive displayed interval. -/
def processRandomEventAsAction (st : GameState) (event : RandomEvent)
    (impacts : List ℚ) : GameState :=
  let currentDisplayedMass :=
    calculateCurrentMass st.initialWhSize st.initialWhState st.committedActions
  let r := processEventActions st.initialWhSize st.initialActualMass
    (event.actions.zip impacts) st.remainingMass st.currentWhState
    currentDisplayedMass 0
  { st with
    randomEventOccurred := true
    remainingMass := r.1
    currentWhState := r.2.1
    committedActions := st.committedActions ++ [⟨r.2.2.1, none⟩] }

/-- The `validEvents` filter of `WormholeRollingUI.processRandomEventsAfterAction`
(app.js lines 762-769): the triggered events all of whose sub-actions use
ships whose size class fits the wormhole's restriction. -/
def validEventsOf (st : GameState) (restriction : ℕ) (events : List RandomEvent)
    (rolls : List ℚ) : List RandomEvent :=
  (checkForRandomEvents events st.randomEventOccurred rolls).filter
    fun event => event.actions.all fun action => shipSize action.shipType ≤ restriction

/-- `WormholeRollingUI.processRandomEventsAfterAction` (app.js lines
752-778): nothing happens when the hidden mass is already depleted;
otherwise, when at least one valid event triggered, the one at index
`⌊selectionDraw · n⌋` among the `n` valid events is executed
(`selectionDraw ∈ [0, 1)` models the `Math.random()` selection draw).  The
second component reports which event, if any, was executed. -/
def processRandomEventsAfterAction (st : GameState) (restriction : ℕ)
    (events : List RandomEvent) (rolls : List ℚ) (selectionDraw : ℚ)
    (impacts : List ℚ) : GameState × Option RandomEvent :=
  if st.remainingMass ≤ 0 then (st, none)
  else
    let randomEvents := checkForRandomEvents events st.randomEventOccurred rolls
    if randomEvents.isEmpty then (st, none)
    else
      let validEvents := validEventsOf st restriction events rolls
      if validEvents.isEmpty then (st, none)
      else
        let randomIndex := (⌊selectionDraw * validEvents.length⌋).toNat
        match validEvents.get? randomIndex with
        | some event => (processRandomEventAsAction st event impacts, some event)
        | none => (st, none)

/-- C10: random-event execution never changes the far-side fleet ledger,
while normal player actions do: an outgoing player action increments the
ship-type count and an incoming one decrements it (floored at 0). -/
theorem randomEvent_preserves_farSide :
    ∀ (st : GameState) (event : RandomEvent) (impacts : List ℚ)
      (t : ShipKey) (mode : ShipMode) (coin : Bool),
      (processRandomEventAsAction st event impacts).shipsOnFarSide =
        st.shipsOnFarSide ∧
      (GameMode.handleAddAction st .B (.ship t mode) coin).state.shipsOnFarSide t =
        st.shipsOnFarSide t + 1 ∧
      (GameMode.handleAddAction st .A (.ship t mode) coin).state.shipsOnFarSide t =
        st.shipsOnFarSide t - 1 := by
  intro st event impacts t mode coin
  refine ⟨rfl, ?_, ?_⟩ <;>
    simp [GameMode.handleAddAction, farSideUpdate, ShipRef.typeKey]

/-- The inputs of one game-mode step: the player action (direction, ship,
hidden-mass coin) followed by the random-event draws consumed by the
`processRandomEventsAfterAction` call at the end of `handleAddAction`
(app.js line 192). -/
structure StepInput where
  direction : Direction
  ship : ShipRef
  coinBelowHalf : Bool
  rolls : List ℚ
  selectionDraw : ℚ
  impacts : List ℚ

/-- One complete game step: `GameMode.handleAddAction` followed by the
`processRandomEventsAfterAction` call from its last line.  The second
component reports the random event executed during the step, if any. -/
def gameStep (events : List RandomEvent) (restriction : ℕ) (st : GameState)
    (inp : StepInput) : GameState × Option RandomEvent :=
  processRandomEventsAfterAction
    (GameMode.handleAddAction st inp.direction inp.ship inp.coinBelowHalf).state
    restriction events inp.rolls inp.selectionDraw inp.impacts

/-- The number of random events executed along a sequence of game steps. -/
def countEventsExecuted (events : List RandomEvent) (restriction : ℕ) :
    GameState → List StepInput → ℕ
  | _, [] => 0
  | st, inp :: rest =>
    let r := gameStep events restriction st inp
    (if r.2.isSome then 1 else 0) + countEventsExecuted events restriction r.1 rest

/-- `handleAddAction` never touches the one-per-game event flag. -/
lemma handleAddAction_flag (st : GameState) (d : Direction) (s : ShipRef) (c : Bool) :
    (GameMode.handleAddAction st d s c).state.randomEventOccurred =
      st.randomEventOccurred := rfl

/-- With the flag set, `processRandomEventsAfterAction` is the identity and
executes nothing. -/
lemma processRandomEventsAfterAction_of_flag (st : GameState) (restriction : ℕ)
    (events : List RandomEvent) (rolls : List ℚ) (sd : ℚ) (impacts : List ℚ)
    (h : st.randomEventOccurred = true) :
    processRandomEventsAfterAction st restriction events rolls sd impacts = (st, none) := by
  rw [processRandomEventsAfterAction]
  split_ifs with h0
  · rfl
  · simp [checkForRandomEvents, h]

/-- Case analysis on `processRandomEventsAfterAction`: either nothing happens
and the state is returned unchanged with no executed event, or the valid
event at the selection index is executed and reported. -/
lemma processRandomEventsAfterAction_cases (st : GameState) (restriction : ℕ)
    (events : List RandomEvent) (rolls : List ℚ) (sd : ℚ) (impacts : List ℚ) :
    processRandomEventsAfterAction st restriction events rolls sd impacts = (st, none) ∨
    ∃ e, (validEventsOf st restriction events rolls).get?
        (⌊sd * ((validEventsOf st restriction events rolls).length : ℚ)⌋).toNat = some e ∧
      processRandomEventsAfterAction st restriction events rolls sd impacts =
        (processRandomEventAsAction st e impacts, some e) := by
  unfold processRandomEventsAfterAction
  dsimp only
  split_ifs with h0 h1 h2
  · exact Or.inl rfl
  · exact Or.inl rfl
  · exact Or.inl rfl
  · rcases hget : (validEventsOf st restriction events rolls).get?
        (⌊sd * ((validEventsOf st restriction events rolls).length : ℚ)⌋).toNat with _ | e
    · exact Or.inl rfl
    · exact Or.inr ⟨e, rfl, rfl⟩

/-- An executed event leaves the flag set. -/
lemma processRandomEventsAfterAction_flag_of_executed (st : GameState)
    (restriction : ℕ) (events : List RandomEvent) (rolls : List ℚ) (sd : ℚ)
    (impacts : List ℚ) (e : RandomEvent)
    (h : (processRandomEventsAfterAction st restriction events rolls sd impacts).2 =
      some e) :
    (processRandomEventsAfterAction st restriction events rolls sd impacts).1.randomEventOccurred =
      true := by
  rcases processRandomEventsAfterAction_cases st restriction events rolls sd impacts with
    hcase | ⟨ev, _, hcase⟩
  · rw [hcase] at h
    exact absurd h (by simp)
  · rw [hcase]
    rfl

/-- A step that executes no event returns the post-action state unchanged. -/
lemma processRandomEventsAfterAction_state_of_none (st : GameState)
    (restriction : ℕ) (events : List RandomEvent) (rolls : List ℚ) (sd : ℚ)
    (impacts : List ℚ)
    (h : (processRandomEventsAfterAction st restriction events rolls sd impacts).2 =
      none) :
    (processRandomEventsAfterAction st restriction events rolls sd impacts).1 = st := by
  rcases processRandomEventsAfterAction_cases st restriction events rolls sd impacts with
    hcase | ⟨ev, _, hcase⟩
  · rw [hcase]
  · rw [hcase] at h
    exact absurd h (by simp)

/-- With the flag already set, no step of any trace ever executes an event. -/
lemma countEventsExecuted_of_flag (events : List RandomEvent) (restriction : ℕ) :
    ∀ (trace : List StepInput) (st : GameState),
      st.randomEventOccurred = true →
      countEventsExecuted events restriction st trace = 0 := by
  intro trace
  induction trace with
  | nil => intro st _; rfl
  | cons inp rest ih =>
    intro st h
    have hstep : gameStep events restriction st inp =
        ((GameMode.handleAddAction st inp.direction inp.ship inp.coinBelowHalf).state,
          none) := by
      rw [gameStep]
      exact processRandomEventsAfterAction_of_flag _ _ _ _ _ _
        ((handleAddAction_flag st _ _ _).trans h)
    rw [countEventsExecuted, hstep]
    simp only [Option.isSome_none, if_neg Bool.false_ne_true, Nat.zero_add]
    exact ih _ ((handleAddAction_flag st _ _ _).trans h)

/-- Over any trace, at most one event is ever executed. -/
lemma countEventsExecuted_le_one (events : List RandomEvent) (restriction : ℕ) :
    ∀ (trace : List StepInput) (st : GameState),
      countEventsExecuted events restriction st trace ≤ 1 := by
  intro trace
  induction trace with
  | nil => intro st; exact Nat.zero_le 1
  | cons inp rest ih =>
    intro st
    rw [countEventsExecuted]
    rcases hr : (gameStep events restriction st inp).2 with _ | e
    · simpa [hr] using ih (gameStep events restriction st inp).1
    · have hflag : (gameStep events restriction st inp).1.randomEventOccurred = true := by
        rw [gameStep] at hr ⊢
        exact processRandomEventsAfterAction_flag_of_executed _ _ _ _ _ _ _ hr
      have hzero := countEventsExecuted_of_flag events restriction rest _ hflag
      simp [hr, hzero]

/-- C5: the blocked check returns no events once the flag is set, the flag
makes every later step a no-event no-op, at most one random event is executed
over any whole session trace (with arbitrary trigger probabilities, in
particular all equal to 1), and a fresh session (reset) starts with the flag
cleared. -/
theorem randomEvent_at_most_once :
    ∀ (events : List RandomEvent) (restriction : ℕ) (st : GameState)
      (trace : List StepInput) (rolls : List ℚ) (size : ℚ) (istate : WhState)
      (fleet : ShipKey → ℕ) (u1 u2 : ℚ),
      (st.randomEventOccurred = true →
        checkForRandomEvents events st.randomEventOccurred rolls = [] ∧
        countEventsExecuted events restriction st trace = 0) ∧
      countEventsExecuted events restriction st trace ≤ 1 ∧
      (startGame size istate fleet u1 u2).randomEventOccurred = false := by
  intro events restriction st trace rolls size istate fleet u1 u2
  refine ⟨fun h => ⟨?_, countEventsExecuted_of_flag events restriction trace st h⟩,
    countEventsExecuted_le_one events restriction trace st, rfl⟩
  simp [checkForRandomEvents, h]

/-- Witness for `randomEvent_at_most_once`: a session whose flag is already
set, with a single probability-1 event and a one-step trace. -/
theorem randomEvent_at_most_once_witness :
    checkForRandomEvents [RandomEvent.mk [] 1]
        ({ startGame 3000 .fresh (fun _ => 0) 0 0 with randomEventOccurred := true } :
          GameState).randomEventOccurred [0] = [] ∧
    countEventsExecuted [RandomEvent.mk [] 1] 3
        ({ startGame 3000 .fresh (fun _ => 0) 0 0 with randomEventOccurred := true })
        [StepInput.mk .B (.ship .rbs .unknown) false [0] 0 []] = 0 :=
  (randomEvent_at_most_once [RandomEvent.mk [] 1] 3
      ({ startGame 3000 .fresh (fun _ => 0) 0 0 with randomEventOccurred := true })
      [StepInput.mk .B (.ship .rbs .unknown) false [0] 0 []] [0] 3000 .fresh
      (fun _ => 0) 0 0).1 rfl

/-- An executed event is one of the valid (restriction-respecting) events. -/
lemma processRandomEventsAfterAction_executed_mem (st : GameState) (restriction : ℕ)
    (events : List RandomEvent) (rolls : List ℚ) (sd : ℚ) (impacts : List ℚ)
    (e : RandomEvent)
    (h : (processRandomEventsAfterAction st restriction events rolls sd impacts).2 =
      some e) :
    e ∈ validEventsOf st restriction events rolls := by
  rcases processRandomEventsAfterAction_cases st restriction events rolls sd impacts with
    hcase | ⟨ev, hget, hcase⟩
  · rw [hcase] at h
    exact absurd h (by simp)
  · rw [hcase] at h
    simp only [Option.some.injEq] at h
    subst h
    exact List.get?_mem hget

/-- C7: an executed random event satisfies the ship-size restriction on every
sub-action; a triggered event containing an oversized sub-action is never the
executed one; and when `n` valid events triggered, the selection draw `i / n`
executes the `i`-th valid event, so the choice ranges over the whole valid
set rather than always taking the first. -/
theorem randomEvent_restriction_and_choice :
    ∀ (st : GameState) (restriction : ℕ) (events : List RandomEvent)
      (rolls : List ℚ) (sd : ℚ) (impacts : List ℚ) (e : RandomEvent) (i : ℕ),
      ((processRandomEventsAfterAction st restriction events rolls sd impacts).2 =
          some e →
        ∀ a ∈ e.actions, shipSize a.shipType ≤ restriction) ∧
      (e ∈ checkForRandomEvents events st.randomEventOccurred rolls →
        (∃ a ∈ e.actions, restriction < shipSize a.shipType) →
        (processRandomEventsAfterAction st restriction events rolls sd impacts).2 ≠
          some e) ∧
      (0 < st.remainingMass →
        i < (validEventsOf st restriction events rolls).length →
        (processRandomEventsAfterAction st restriction events rolls
            ((i : ℚ) / ((validEventsOf st restriction events rolls).length : ℚ))
            impacts).2 =
          (validEventsOf st restriction events rolls).get? i) := by
  intro st restriction events rolls sd impacts e i
  have fits : (processRandomEventsAfterAction st restriction events rolls sd
      impacts).2 = some e → ∀ a ∈ e.actions, shipSize a.shipType ≤ restriction := by
    intro h a ha
    have hmem := processRandomEventsAfterAction_executed_mem st restriction events
      rolls sd impacts e h
    rw [validEventsOf, List.mem_filter] at hmem
    have hall := List.all_eq_true.mp hmem.2 a ha
    exact of_decide_eq_true hall
  refine ⟨fits, ?_, ?_⟩
  · intro _htrig ⟨a, ha, hsize⟩ h
    exact absurd (fits h a ha) (not_le.mpr hsize)
  · intro hpos hi
    have hn : ((validEventsOf st restriction events rolls).length : ℚ) ≠ 0 := by
      have hlen : 0 < (validEventsOf st restriction events rolls).length :=
        lt_of_le_of_lt (Nat.zero_le i) hi
      exact_mod_cast hlen.ne'
    have hidx : (⌊(i : ℚ) / ((validEventsOf st restriction events rolls).length : ℚ) *
        ((validEventsOf st restriction events rolls).length : ℚ)⌋).toNat = i := by
      rw [div_mul_cancel₀ _ hn]
      simp
    have hcheck : (checkForRandomEvents events st.randomEventOccurred rolls).isEmpty =
        false := by
      rcases hc : checkForRandomEvents events st.randomEventOccurred rolls with _ | _
      · rw [validEventsOf, hc] at hi
        simp at hi
      · rfl
    have hvalid : (validEventsOf st restriction events rolls).isEmpty = false := by
      rcases hv : validEventsOf st restriction events rolls with _ | _
      · rw [hv] at hi
        simp at hi
      · rfl
    unfold processRandomEventsAfterAction
    dsimp only
    rw [if_neg (not_le.mpr hpos), hcheck, if_neg Bool.false_ne_true, hvalid,
      if_neg Bool.false_ne_true, hidx]
    rcases hget : (validEventsOf st restriction events rolls).get? i with _ | ev
    · rfl
    · rfl

/-- Witness for `randomEvent_restriction_and_choice`: on a fresh 3000 Gg game
with restriction 3, with a carrier event and a cruiser event both triggered
(probability 1, rolls 0), only the cruiser event is valid and selection draw
`0 / 1` executes it. -/
theorem randomEvent_restriction_and_choice_witness :
    0 < (startGame 3000 .fresh (fun _ => 0) 0 0).remainingMass ∧
    0 < (validEventsOf (startGame 3000 .fresh (fun _ => 0) 0 0) 3
        [RandomEvent.mk [EventAction.mk .carrier .outgoing] 1,
          RandomEvent.mk [EventAction.mk .cruiser .outgoing] 1] [0, 0]).length ∧
    (processRandomEventsAfterAction (startGame 3000 .fresh (fun _ => 0) 0 0) 3
        [RandomEvent.mk [EventAction.mk .carrier .outgoing] 1,
          RandomEvent.mk [EventAction.mk .cruiser .outgoing] 1] [0, 0]
        (((0 : ℕ) : ℚ) /
          ((validEventsOf (startGame 3000 .fresh (fun _ => 0) 0 0) 3
              [RandomEvent.mk [EventAction.mk .carrier .outgoing] 1,
                RandomEvent.mk [EventAction.mk .cruiser .outgoing] 1] [0, 0]).length : ℚ))
        []).2 =
      (validEventsOf (startGame 3000 .fresh (fun _ => 0) 0 0) 3
          [RandomEvent.mk [EventAction.mk .carrier .outgoing] 1,
            RandomEvent.mk [EventAction.mk .cruiser .outgoing] 1] [0, 0]).get? 0 :=
  ⟨by norm_num [startGame, jsFloor, jsRound],
   by norm_num [validEventsOf, checkForRandomEvents, startGame, shipSize],
   (randomEvent_restriction_and_choice (startGame 3000 .fresh (fun _ => 0) 0 0) 3
      [RandomEvent.mk [EventAction.mk .carrier .outgoing] 1,
        RandomEvent.mk [EventAction.mk .cruiser .outgoing] 1] [0, 0] 0 []
      (RandomEvent.mk [] 1) 0).2.2
    (by norm_num [startGame, jsFloor, jsRound])
    (by norm_num [validEventsOf, checkForRandomEvents, startGame, shipSize])⟩

/-- The manual outcome declared when committing a tracker batch: the four
apply buttons (`no-change`, `destab`, `critical`, `gone`, app.js lines
977-988). -/
inductive DeclaredChange where
  | noChange
  | destab
  | critical
  | gone
deriving DecidableEq, Repr

/-- The state in force after a declaration: `no-change` keeps the current
state, the others adopt the named state (app.js lines 1074-1078). -/
def DeclaredChange.finalState (stateChange : DeclaredChange)
    (currentWhState : WhState) : WhState :=
  match stateChange with
  | .noChange => currentWhState
  | .destab => .destab
  | .critical => .critical
  | .gone => .gone

/-- The tracker-mode session state: the fields of `WormholeRollingUI` that
the staging/commit pipeline reads and writes. -/
structure TrackerState where
  initialWhSize : ℚ
  initialWhState : WhState
  currentWhState : WhState
  committedActions : List LogEntry
  stagedActions : List Action
  shipsOnFarSide : ShipKey → ℕ

/-- The per-action passed-mass estimate of
`WormholeRollingUI.commitStagingToLog` (app.js lines 1143-1151): the exact
mass when known, else the midpoint of `[cold, hot]`. -/
def passedMassOf (a : Action) : ℚ :=
  let shipMass := a.ship.getMass
  if shipMass.min = shipMass.max then shipMass.min
  else (shipMass.min + shipMass.max) / 2

/-- `WormholeRollingUI.applyStaging` (app.js lines 1056-1107) together with
the `commitStagingToLog` it calls (lines 1140-1205): with a non-empty staged
queue, apply every staged action raw (no per-action boundary clamp) to the
current interval, adopt the declared state, clamp once to its boundaries,
append a ledger entry carrying the per-batch passed-mass estimate, update the
far-side ledger per action direction, and clear the queue; an empty queue is
a no-op. -/
def applyStaging (st : TrackerState) (stateChange : DeclaredChange) : TrackerState :=
  if st.stagedActions.isEmpty then st
  else
    let currentMass0 :=
      calculateCurrentMass st.initialWhSize st.initialWhState st.committedActions
    let currentMass1 :=
      st.stagedActions.foldl (fun m a => a.applyToMass m none) currentMass0
    let finalState := stateChange.finalState st.currentWhState
    let stateBoundaries :=
      (Wormhole.mk st.initialWhSize finalState).getStateBoundaries
    let newMin := max currentMass1.min stateBoundaries.min
    let newMax := min currentMass1.max stateBoundaries.max
    let finalMass : MassRange := ⟨min newMin newMax, newMax⟩
    let entryPassedMass := st.stagedActions.foldl (fun acc a => acc + passedMassOf a) 0
    let shipsOnFarSide := st.stagedActions.foldl
      (fun ships a => farSideUpdate ships a.direction a.ship.typeKey) st.shipsOnFarSide
    { st with
      currentWhState := finalState
      committedActions := st.committedActions ++ [⟨finalMass, some entryPassedMass⟩]
      stagedActions := []
      shipsOnFarSide := shipsOnFarSide }

/-- Folding the passed-mass accumulation is the sum of the per-action
estimates. -/
lemma foldl_passedMass (l : List Action) :
    ∀ init : ℚ, l.foldl (fun acc a => acc + passedMassOf a) init =
      init + (l.map passedMassOf).sum := by
  induction l with
  | nil => intro init; simp
  | cons a t ih =>
    intro init
    rw [List.foldl_cons, ih, List.map_cons, List.sum_cons]
    ring

/-- C6: committing a non-empty staged queue appends exactly one ledger entry
whose interval is the current (last committed) interval with every staged
action applied in order without boundary clamping, then intersected once with
the declared state's boundaries with `min` forced `≤ max`, and whose
per-batch passed mass is the sum over the staged actions of the exact mass
when known and the `[cold, hot]` midpoint otherwise; the staged queue is
empty afterwards. -/
theorem applyStaging_commit :
    ∀ (st : TrackerState) (stateChange : DeclaredChange),
      st.stagedActions ≠ [] →
      (applyStaging st stateChange).committedActions =
        st.committedActions ++
          [⟨let raw := st.stagedActions.foldl (fun m a => a.applyToMass m none)
              (calculateCurrentMass st.initialWhSize st.initialWhState
                st.committedActions)
            let b := (Wormhole.mk st.initialWhSize
              (stateChange.finalState st.currentWhState)).getStateBoundaries
            ⟨min (max raw.min b.min) (min raw.max b.max), min raw.max b.max⟩,
            some ((st.stagedActions.map passedMassOf).sum)⟩] ∧
      (applyStaging st stateChange).stagedActions = [] := by
  intro st stateChange hne
  have hempty : st.stagedActions.isEmpty = false := by
    rcases h : st.stagedActions with _ | _
    · exact absurd h hne
    · rfl
  rw [applyStaging, hempty]
  rw [if_neg Bool.false_ne_true]
  exact ⟨by rw [foldl_passedMass, zero_add], rfl⟩

/-- Witness for `applyStaging_commit`: the 1000 Gg fresh tracker session with
one staged custom-mass 1200 action committed as `gone` (the ledger entry it
appends clamps to `{0, 0}` with passed mass 1200, evaluated separately). -/
theorem applyStaging_commit_witness :
    (TrackerState.mk 1000 .fresh .stable []
        [Action.mk (.customMass 1200) .B] (fun _ => 0)).stagedActions ≠ [] ∧
    (applyStaging (TrackerState.mk 1000 .fresh .stable []
        [Action.mk (.customMass 1200) .B] (fun _ => 0)) .gone).stagedActions = [] ∧
    (applyStaging (TrackerState.mk 1000 .fresh .stable []
        [Action.mk (.customMass 1200) .B] (fun _ => 0)) .gone).committedActions =
      [⟨⟨0, 0⟩, some 1200⟩] :=
  ⟨by simp,
   (applyStaging_commit (TrackerState.mk 1000 .fresh .stable []
      [Action.mk (.customMass 1200) .B] (fun _ => 0)) .gone (by simp)).2,
   by
    rw [(applyStaging_commit (TrackerState.mk 1000 .fresh .stable []
      [Action.mk (.customMass 1200) .B] (fun _ => 0)) .gone (by simp)).1]
    norm_num [calculateCurrentMass, Wormhole.getCurrentMassRange,
      Wormhole.getStateBoundaries, Wormhole.getMinMass, Wormhole.getMaxMass,
      Action.applyToMass, Action.subtractShipMass, ShipRef.getMass, passedMassOf,
      DeclaredChange.finalState, jsRound]⟩

end EveRolling
